import Mathlib

/-!
Verification of the cow-safe order-submission CLI.

This file gives a shallow embedding of the order lifecycle orchestration of
the repository (quote request building, slippage price protection,
preparatory approval planning, account-model dispatch, and Safe threshold
coordination), translated from `src/index.ts`, `src/types.ts`,
`src/constants.ts` and the utilities module (`getProvider`, `getSigner`,
`getTradingAccounts`...), and proves theorems about the embedded code.

External collaborators (the quoting service, the order book, the chain RPC,
the Safe service, the console confirmation gate) are modelled as explicit
inputs; on-chain reads and outgoing calls are recorded in an event trace so
that ordering properties ("the order is posted before the pre-sign
operation is created", "the failure happens before the allowance query")
are statable.
-/

namespace CowSafe

/-- Constant from `src/constants.ts`: the 256-bit maximum unsigned value
(the source names it `MAX_U32`, but the hex literal has 64 `f` digits,
i.e. it is the maximum representable uint256), used for max approvals. -/
def MAX_U32 : Nat := 0xffffffffffffffffffffffffffffffffffffffffffffffffffffffffffffffff

/-- Constant `TEN_THOUSAND` from `src/constants.ts` (a BigNumber in the
source; BigNumber values are arbitrary-precision integers, so we model
them as `Int`). -/
def TEN_THOUSAND : Int := 10000

/-- Constant `DEFAULT_SLIPPAGE_BIPS = 100` from `src/constants.ts`. -/
def DEFAULT_SLIPPAGE_BIPS : Nat := 100

/-- Constant `DEADLINE_OFFSET = 30 * 60 * 1000` from `src/constants.ts`. -/
def DEADLINE_OFFSET : Nat := 30 * 60 * 1000

/-- Supported chain ids (keys of the `GPv2Settlement` table of
`networks.json`: mainnet, rinkeby, goerli, gnosis chain). -/
def SUPPORTED_CHAIN_IDS : List Nat := [1, 4, 5, 100]

/-- The sanity check that the `MAX_U32` hex literal of the source is the
maximum uint256. -/
theorem MAX_U32_eq : MAX_U32 = 2 ^ 256 - 1 := by decide

/-- Result record of `getCustomPrice`. -/
structure CustomPrice where
  sellAmount : Nat
  buyAmount : Int
  deriving DecidableEq, Repr

/-- Embedding of `getCustomPrice` (`src/index.ts`): applies the slippage
tolerance (in bips, defaulting to `DEFAULT_SLIPPAGE_BIPS` when absent from
the order definition) to the quoted buy amount, using ethers BigNumber
arithmetic: exact integer multiplication and subtraction, and division
truncating toward zero (`Int.tdiv`).  The sell amount passes through
unchanged (fees are already deducted by the quoting service). -/
def getCustomPrice (sellAmountQuote buyAmountQuote : Nat)
    (slippageToleranceBips : Option Nat) : CustomPrice :=
  let bips : Nat := slippageToleranceBips.getD DEFAULT_SLIPPAGE_BIPS
  { sellAmount := sellAmountQuote,
    buyAmount :=
      Int.tdiv ((buyAmountQuote : Int) * (TEN_THOUSAND - (bips : Int))) TEN_THOUSAND }

theorem int_tdiv_coe (m n : Nat) :
    Int.tdiv (m : Int) (n : Int) = ((m / n : Nat) : Int) := rfl

theorem int_fdiv_coe (m n : Nat) :
    Int.fdiv (m : Int) (n : Int) = ((m / n : Nat) : Int) := by
  cases m with
  | zero => simp [Int.fdiv]
  | succ k => rfl

/-- With `bips ≤ 10000` the scaled amount is non-negative, so the
truncating division of the source agrees with floor division and with
natural-number division. -/
theorem getCustomPrice_buyAmount_nat (sq bq bips : Nat) (h : bips ≤ 10000) :
    (getCustomPrice sq bq (some bips)).buyAmount
      = ((bq * (10000 - bips) / 10000 : Nat) : Int) := by
  have hcast : TEN_THOUSAND - (bips : Int) = ((10000 - bips : Nat) : Int) := by
    have := Nat.cast_sub (R := Int) h
    simp [TEN_THOUSAND, this]
  simp only [getCustomPrice, Option.getD, hcast]
  have : ((bq : Int) * ((10000 - bips : Nat) : Int))
      = (((bq * (10000 - bips) : Nat)) : Int) := by push_cast; ring
  rw [this, TEN_THOUSAND]
  exact int_tdiv_coe (bq * (10000 - bips)) 10000

/-- Counterexample to claim C3 as stated: the claim quantifies over every
`slippageToleranceBips`, but for `buyAmountQuote = 1`, `bips = 10001` the
source computes `BigNumber(1).mul(10000 - 10001).div(10000)`, and ethers
BigNumber division truncates toward zero, yielding `0`, while the floor of
`1 * (10000 - 10001) / 10000` is `-1`. -/
theorem getCustomPrice_floor_fails_above_ten_thousand :
    (getCustomPrice 7 1 (some 10001)).buyAmount = 0
    ∧ Int.fdiv ((1 : Int) * ((10000 : Int) - (10001 : Int))) 10000 = -1
    ∧ (getCustomPrice 7 1 (some 10001)).buyAmount
        ≠ Int.fdiv ((1 : Int) * ((10000 : Int) - (10001 : Int))) 10000 := by
  decide

/-- C3 (amended): for every quoted `buyAmountQuote` and every
`slippageToleranceBips ≤ 10000` (defaulting to 100 when absent from the
order definition), `getCustomPrice` returns
`buyAmount = floor(buyAmountQuote * (10000 - bips) / 10000)` computed with
exact integer arithmetic, and returns `sellAmount` equal to the quoted
sell amount unchanged.  (For `bips > 10000` the truncating division of the
source differs from the floor, see the counterexample.)  The witness
checks the concrete instance `buyAmountQuote = 164577689090780`,
`bips = 100`, `buyAmount = 162931912199872` of the claim. -/
theorem getCustomPrice_slippage_floor (sq bq bips : Nat) (h : bips ≤ 10000) :
    (getCustomPrice sq bq (some bips)).buyAmount
        = Int.fdiv ((bq : Int) * ((10000 : Int) - (bips : Int))) 10000
    ∧ (getCustomPrice sq bq (some bips)).sellAmount = sq
    ∧ getCustomPrice sq bq none = getCustomPrice sq bq (some DEFAULT_SLIPPAGE_BIPS) := by
  refine ⟨?_, rfl, rfl⟩
  rw [getCustomPrice_buyAmount_nat sq bq bips h]
  have hcast : (10000 : Int) - (bips : Int) = ((10000 - bips : Nat) : Int) := by
    have := Nat.cast_sub (R := Int) h
    simp [this]
  rw [hcast]
  have hmul : ((bq : Int) * ((10000 - bips : Nat) : Int))
      = (((bq * (10000 - bips) : Nat)) : Int) := by push_cast; ring
  rw [hmul]
  simpa using (int_fdiv_coe (bq * (10000 - bips)) 10000).symm

/-- Witness for the amended C3 theorem at the concrete instance of the
claim: `bips = 100 ≤ 10000` and
`floor(164577689090780 * 9900 / 10000) = 162931912199872`. -/
theorem getCustomPrice_slippage_floor_witness :
    (100 : Nat) ≤ 10000
    ∧ ((getCustomPrice 0 164577689090780 (some 100)).buyAmount
          = Int.fdiv ((164577689090780 : Int) * ((10000 : Int) - (100 : Int))) 10000
        ∧ (getCustomPrice 0 164577689090780 (some 100)).sellAmount = 0
        ∧ getCustomPrice 0 164577689090780 none
            = getCustomPrice 0 164577689090780 (some DEFAULT_SLIPPAGE_BIPS))
    ∧ (getCustomPrice 0 164577689090780 (some 100)).buyAmount = 162931912199872 :=
  ⟨by decide, getCustomPrice_slippage_floor 0 164577689090780 100 (by decide), by decide⟩

/-- Counterexample to claim C4 as stated: the claim asserts strict decrease
of the protected buy amount as bips increases, for every positive
`buyAmountQuote`; but for `buyAmountQuote = 1` the amounts at `bips = 1`
and `bips = 2` are both `0`. -/
theorem getCustomPrice_strict_decrease_fails :
    0 < (1 : Nat) ∧ (1 : Nat) < 2 ∧ (2 : Nat) < 10000
    ∧ (getCustomPrice 0 1 (some 1)).buyAmount = 0
    ∧ (getCustomPrice 0 1 (some 2)).buyAmount = 0 := by
  decide

/-- C4 (amended): for all `buyAmountQuote > 0` and all bips below 10000,
the protected buy amount is at most `buyAmountQuote`, and it is
monotonically non-increasing (not strictly decreasing, see the
counterexample) as bips increases. -/
theorem getCustomPrice_slippage_monotone (sq bq b b' : Nat)
    (_hbq : 0 < bq) (hb' : b' < 10000) (hle : b ≤ b') :
    (getCustomPrice sq bq (some b')).buyAmount
        ≤ (getCustomPrice sq bq (some b)).buyAmount
    ∧ (getCustomPrice sq bq (some b)).buyAmount ≤ (bq : Int) := by
  have hb10 : b ≤ 10000 := le_of_lt (lt_of_le_of_lt hle hb')
  have hb'10 : b' ≤ 10000 := le_of_lt hb'
  rw [getCustomPrice_buyAmount_nat sq bq b hb10,
    getCustomPrice_buyAmount_nat sq bq b' hb'10]
  constructor
  · exact_mod_cast Nat.div_le_div_right
      (Nat.mul_le_mul_left bq (Nat.sub_le_sub_left hle 10000))
  · have h1 : bq * (10000 - b) / 10000 ≤ bq * 10000 / 10000 :=
      Nat.div_le_div_right (Nat.mul_le_mul_left bq (Nat.sub_le 10000 b))
    have h2 : bq * 10000 / 10000 = bq := Nat.mul_div_cancel bq (by decide)
    exact_mod_cast h2 ▸ h1

/-- Witness for the amended C4 theorem at a concrete input. -/
theorem getCustomPrice_slippage_monotone_witness :
    (0 < (20000 : Nat) ∧ (2 : Nat) < 10000 ∧ (1 : Nat) ≤ 2)
    ∧ ((getCustomPrice 0 20000 (some 2)).buyAmount
          ≤ (getCustomPrice 0 20000 (some 1)).buyAmount
        ∧ (getCustomPrice 0 20000 (some 1)).buyAmount ≤ ((20000 : Nat) : Int)) :=
  ⟨⟨by decide, by decide, by decide⟩,
    getCustomPrice_slippage_monotone 0 20000 1 2 (by decide) (by decide) (by decide)⟩

/-- Abstract model of ABI-encoded calldata: the source encodes calldata
with `encodeFunctionData`; we keep the function name and arguments
symbolically (the encoding is injective). -/
inductive TxData where
  | approve (spender : String) (amount : Nat)
  | setPreSignature (orderUid : String) (signed : Bool)
  deriving DecidableEq, Repr

/-- `TxRequest` from `src/types.ts`: `to`, `value`, `data` of a
meta-transaction (the source carries `value` as the string literal
zero; we model amounts as numbers). -/
structure TxRequest where
  «to» : String
  value : Nat
  data : TxData
  deriving DecidableEq, Repr

/-- `OnchainOperation` from `src/types.ts`. -/
structure OnchainOperation where
  description : String
  txRequest : TxRequest
  deriving DecidableEq, Repr

/-- Models the `GPv2VaultRelayer` address table of the external
`networks.json` as an injective table indexed by chain id. -/
def vaultRelayerAddress (chainId : Nat) : String :=
  "GPv2VaultRelayer-" ++ toString chainId

/-- Models the `GPv2Settlement` address table of the external
`networks.json` as an injective table indexed by chain id. -/
def settlementAddress (chainId : Nat) : String :=
  "GPv2Settlement-" ++ toString chainId

/-- Read-only on-chain state visible to the planner: ERC-20 balances
(token, holder) and allowances (token, owner, spender). -/
structure ChainState where
  balanceOf : String → String → Nat
  allowance : String → String → String → Nat

/-- One on-chain read, recorded in the order the source performs it. -/
inductive ChainQuery where
  | balanceOf (token account : String)
  | allowance (token owner spender : String)
  deriving DecidableEq, Repr

/-- The failure modes of the embedded program; each constructor
corresponds to one `throw` or failing `assert` site of the source. -/
inductive CowError where
  | missingRpcConfig
  | missingMnemonic
  | missingChainId
  | unsupportedChainId (chainId : Nat)
  | signerAddressMissing
  | safeAddressMissing (accountType : String)
  | insufficientBalance (sellToken : String) (required actualBalance : Nat)
  | signerAssertionFailed
  | unsupportedAccountType (accountType : String)
  | notImplementedEip1271
  | notImplemented
  deriving DecidableEq, Repr

/-- `LimitOrderParams` from `src/types.ts` (amount strings modelled as
numbers). -/
structure LimitOrderParams where
  sellToken : String
  buyToken : String
  sellAmountBeforeFee : Nat
  buyAmount : Option Nat
  partiallyFillable : Option Bool
  appData : Option String
  receiver : Option String
  slippageToleranceBips : Option Nat
  deriving DecidableEq, Repr

/-- Embedding of `getAppoveOperation` (`src/index.ts`, name of the source
kept typo included): queries the sell-token balance of `fromAccount` and
throws when it is below `sellAmountBeforeFee`, reporting the required and
actual amounts; otherwise queries the allowance granted to the vault
relayer and returns no operation when it already covers `sellAmount`, or
exactly one approve operation for `MAX_U32` directed at the sell token
otherwise.  The second component is the trace of on-chain reads, in the
order the source performs them. -/
def getAppoveOperation (st : ChainState) (fromAccount : String)
    (sellAmount : Nat) (chainId : Nat) (order : LimitOrderParams) :
    Except CowError (Option OnchainOperation) × List ChainQuery :=
  let sellTokenAddress := order.sellToken
  let balance := st.balanceOf sellTokenAddress fromAccount
  if balance < order.sellAmountBeforeFee then
    (.error (.insufficientBalance sellTokenAddress order.sellAmountBeforeFee balance),
      [.balanceOf sellTokenAddress fromAccount])
  else
    let vaultAddress := vaultRelayerAddress chainId
    let allowance := st.allowance sellTokenAddress fromAccount vaultAddress
    if sellAmount ≤ allowance then
      (.ok none,
        [.balanceOf sellTokenAddress fromAccount,
          .allowance sellTokenAddress fromAccount vaultAddress])
    else
      (.ok (some
        { description := "Approve sell token",
          txRequest :=
            { «to» := sellTokenAddress,
              value := 0,
              data := .approve vaultAddress MAX_U32 } }),
        [.balanceOf sellTokenAddress fromAccount,
          .allowance sellTokenAddress fromAccount vaultAddress])

/-- C5: whenever the sell-token balance of `fromAccount` is below
`sellAmountBeforeFee`, `getAppoveOperation` fails with an error reporting
the required and the actual amount, and its on-chain read trace is the
single balance query — the allowance query is never made and no approve
operation is constructed. -/
theorem getAppoveOperation_insufficient_balance (st : ChainState)
    (fromAccount : String) (sellAmount chainId : Nat) (order : LimitOrderParams)
    (h : st.balanceOf order.sellToken fromAccount < order.sellAmountBeforeFee) :
    getAppoveOperation st fromAccount sellAmount chainId order
      = (.error (.insufficientBalance order.sellToken order.sellAmountBeforeFee
            (st.balanceOf order.sellToken fromAccount)),
          [.balanceOf order.sellToken fromAccount]) := by
  simp [getAppoveOperation, h]

/-- Chain state whose every balance is 5 and every allowance 0, for
witnesses. -/
def lowBalanceChain : ChainState :=
  { balanceOf := fun _ _ => 5, allowance := fun _ _ _ => 0 }

/-- Order definition selling 10 units, for witnesses. -/
def tenUnitsOrder : LimitOrderParams :=
  { sellToken := "0xSELL", buyToken := "0xBUY", sellAmountBeforeFee := 10,
    buyAmount := none, partiallyFillable := none, appData := none,
    receiver := none, slippageToleranceBips := none }

/-- Witness for the C5 theorem: a concrete chain state with balance 5
against a required 10. -/
theorem getAppoveOperation_insufficient_balance_witness :
    lowBalanceChain.balanceOf tenUnitsOrder.sellToken "0xFROM"
        < tenUnitsOrder.sellAmountBeforeFee
    ∧ getAppoveOperation lowBalanceChain "0xFROM" 10 1 tenUnitsOrder
        = (.error (.insufficientBalance tenUnitsOrder.sellToken
              tenUnitsOrder.sellAmountBeforeFee
              (lowBalanceChain.balanceOf tenUnitsOrder.sellToken "0xFROM")),
            [.balanceOf tenUnitsOrder.sellToken "0xFROM"]) :=
  ⟨by decide,
    getAppoveOperation_insufficient_balance lowBalanceChain "0xFROM" 10 1
      tenUnitsOrder (by decide)⟩

/-- C6: given sufficient balance, the planner returns no operation exactly
when the allowance granted by `fromAccount` to the vault relayer covers
`sellAmount`; otherwise it returns exactly one approve operation directed
at the sell token, approving `MAX_U32` (the maximum uint256) for the vault
relayer; and the decision depends only on the two queried values, so any
chain state agreeing on them yields the identical result. -/
theorem getAppoveOperation_allowance_decision (st : ChainState)
    (fromAccount : String) (sellAmount chainId : Nat) (order : LimitOrderParams)
    (h : order.sellAmountBeforeFee ≤ st.balanceOf order.sellToken fromAccount) :
    ((getAppoveOperation st fromAccount sellAmount chainId order).1 = .ok none
        ↔ sellAmount
            ≤ st.allowance order.sellToken fromAccount (vaultRelayerAddress chainId))
    ∧ (st.allowance order.sellToken fromAccount (vaultRelayerAddress chainId)
          < sellAmount →
        (getAppoveOperation st fromAccount sellAmount chainId order).1
          = .ok (some
              { description := "Approve sell token",
                txRequest :=
                  { «to» := order.sellToken,
                    value := 0,
                    data := .approve (vaultRelayerAddress chainId) MAX_U32 } }))
    ∧ (∀ st' : ChainState,
        st'.balanceOf order.sellToken fromAccount
            = st.balanceOf order.sellToken fromAccount →
        st'.allowance order.sellToken fromAccount (vaultRelayerAddress chainId)
            = st.allowance order.sellToken fromAccount (vaultRelayerAddress chainId) →
        getAppoveOperation st' fromAccount sellAmount chainId order
          = getAppoveOperation st fromAccount sellAmount chainId order) := by
  have hb := Nat.not_lt.2 h
  refine ⟨?_, ?_, ?_⟩
  · by_cases ha :
      sellAmount ≤ st.allowance order.sellToken fromAccount (vaultRelayerAddress chainId)
    · simp [getAppoveOperation, hb, ha]
    · simp [getAppoveOperation, hb, ha]
  · intro hlt
    simp [getAppoveOperation, hb, Nat.not_le.2 hlt]
  · intro st' hbal hall
    simp [getAppoveOperation, hbal, hall]

/-- Chain state with large balances and allowance 3, for witnesses. -/
def richChainLowAllowance : ChainState :=
  { balanceOf := fun _ _ => 1000, allowance := fun _ _ _ => 3 }

/-- Witness for the C6 theorem: sufficient balance, allowance 3 below a
required sell amount of 10, so exactly one max approval is produced. -/
theorem getAppoveOperation_allowance_decision_witness :
    tenUnitsOrder.sellAmountBeforeFee
        ≤ richChainLowAllowance.balanceOf tenUnitsOrder.sellToken "0xFROM"
    ∧ ((getAppoveOperation richChainLowAllowance "0xFROM" 10 1 tenUnitsOrder).1
          = .ok none
        ↔ 10 ≤ richChainLowAllowance.allowance tenUnitsOrder.sellToken "0xFROM"
            (vaultRelayerAddress 1))
    ∧ (richChainLowAllowance.allowance tenUnitsOrder.sellToken "0xFROM"
          (vaultRelayerAddress 1) < 10 →
        (getAppoveOperation richChainLowAllowance "0xFROM" 10 1 tenUnitsOrder).1
          = .ok (some
              { description := "Approve sell token",
                txRequest :=
                  { «to» := tenUnitsOrder.sellToken,
                    value := 0,
                    data := .approve (vaultRelayerAddress 1) MAX_U32 } })) :=
  ⟨by decide,
    (getAppoveOperation_allowance_decision richChainLowAllowance "0xFROM" 10 1
      tenUnitsOrder (by decide)).1,
    (getAppoveOperation_allowance_decision richChainLowAllowance "0xFROM" 10 1
      tenUnitsOrder (by decide)).2.1⟩

/-- JavaScript values appearing in the order objects. -/
inductive JsValue where
  | str (s : String)
  | num (n : Nat)
  | int (i : Int)
  | bool (b : Bool)
  | undef
  deriving DecidableEq, Repr

/-- A JavaScript object, modelled as its ordered list of own properties. -/
def JsObject := List (String × JsValue)

/-- Property assignment: overwrites the value in place when the key
exists, appends the property otherwise. -/
def setKey : JsObject → String → JsValue → JsObject
  | [], k, v => [(k, v)]
  | (k', v') :: rest, k, v =>
    if k' = k then (k', v) :: rest else (k', v') :: setKey rest k v

/-- The JavaScript `delete` operator: removes the property. -/
def delKey : JsObject → String → JsObject
  | [], _ => []
  | (k', v') :: rest, k =>
    if k' = k then delKey rest k else (k', v') :: delKey rest k

/-- Property lookup: `some` the stored value, `none` when the key is
absent. -/
def getKey : JsObject → String → Option JsValue
  | [], _ => none
  | (k', v) :: rest, k => if k' = k then some v else getKey rest k

/-- `QuoteQuery` as built by `getQuoteOrder` (`src/index.ts`): order type,
limit order data, trader addresses, deadline and metadata. -/
structure QuoteQuery where
  partiallyFillable : Bool
  kind : String
  sellTokenBalance : String
  buyTokenBalance : String
  sellToken : String
  buyToken : String
  sellAmountBeforeFee : Nat
  «from» : String
  receiver : String
  validTo : Nat
  appData : String
  deriving DecidableEq, Repr

/-- The `QuoteQuery` object of `getQuoteOrder`, with its keys in the order
of the source object literal. -/
def quoteQueryObj (q : QuoteQuery) : JsObject :=
  [("partiallyFillable", .bool q.partiallyFillable),
   ("kind", .str q.kind),
   ("sellTokenBalance", .str q.sellTokenBalance),
   ("buyTokenBalance", .str q.buyTokenBalance),
   ("sellToken", .str q.sellToken),
   ("buyToken", .str q.buyToken),
   ("sellAmountBeforeFee", .num q.sellAmountBeforeFee),
   ("from", .str q.«from»),
   ("receiver", .str q.receiver),
   ("validTo", .num q.validTo),
   ("appData", .str q.appData)]

/-- The `RawOrder` construction of `run` (`src/index.ts`): spread the
quote query, override `receiver`, the limit price and the fee fields, set
`sellAmountBeforeFee` to `undefined`, then `delete` that key. -/
def rawOrderObj (q : QuoteQuery) (receiver : String) (sellAmount : Nat)
    (buyAmount : Int) (feeAmount : Nat) : JsObject :=
  let spread :=
    setKey (setKey (setKey (setKey (setKey (setKey (quoteQueryObj q)
      "receiver" (.str receiver))
      "sellAmount" (.num sellAmount))
      "buyAmount" (.int buyAmount))
      "sellAmountBeforeFee" .undef)
      "feeAmount" (.num feeAmount))
      "priceQuality" (.str "optimal")
  delKey spread "sellAmountBeforeFee"

/-- C9: the raw order sent for signing/submission has no
`sellAmountBeforeFee` key at all (the field is removed after
construction), and every quote-query field other than the explicitly
overridden ones (`receiver`, `sellAmount`, `buyAmount`, `feeAmount`,
`priceQuality`) is carried over into the raw order unchanged. -/
theorem rawOrder_drops_quoting_field (q : QuoteQuery) (receiver : String)
    (sellAmount : Nat) (buyAmount : Int) (feeAmount : Nat) :
    getKey (rawOrderObj q receiver sellAmount buyAmount feeAmount)
        "sellAmountBeforeFee" = none
    ∧ ∀ k : String,
        k ∉ ["receiver", "sellAmount", "buyAmount", "feeAmount",
          "priceQuality", "sellAmountBeforeFee"] →
        getKey (rawOrderObj q receiver sellAmount buyAmount feeAmount) k
          = getKey (quoteQueryObj q) k := by
  refine ⟨rfl, ?_⟩
  intro k hk
  simp only [List.mem_cons, List.not_mem_nil, or_false, not_or] at hk
  obtain ⟨h1, h2, h3, h4, h5, h6⟩ := hk
  have h1' : ¬("receiver" = k) := fun h => h1 h.symm
  have h2' : ¬("sellAmount" = k) := fun h => h2 h.symm
  have h3' : ¬("buyAmount" = k) := fun h => h3 h.symm
  have h4' : ¬("feeAmount" = k) := fun h => h4 h.symm
  have h5' : ¬("priceQuality" = k) := fun h => h5 h.symm
  have h6' : ¬("sellAmountBeforeFee" = k) := fun h => h6 h.symm
  simp [rawOrderObj, quoteQueryObj, setKey, delKey, getKey,
    h1', h2', h3', h4', h5', h6']

/-- Binary provider model: the source only ever constructs
`ethers.providers.InfuraProvider(chainId, infuraKey)`. -/
inductive Provider where
  | infura (chainId : Nat) (infuraKey : Option String)
  deriving DecidableEq, Repr

/-- Environment variables read by the program. -/
structure Env where
  mnemonic : Option String
  infuraKey : Option String
  rpcUrl : Option String
  appData : Option String
  chainIdEnv : Option Nat
  deriving DecidableEq, Repr

/-- Embedding of `getProvider` (utilities module): when `INFURA_KEY` is
set, an Infura provider for that key; otherwise, when `RPC_URL` is set,
the source still constructs `new ethers.providers.InfuraProvider(chainId,
infuraKey)` passing the undefined `INFURA_KEY` — the `RPC_URL` value is
never used; when both are unset, it throws. -/
def getProvider (chainId : Nat) (env : Env) : Except CowError Provider :=
  let infuraKey := env.infuraKey
  let rpcUrl := env.rpcUrl
  match infuraKey with
  | some _ => .ok (.infura chainId infuraKey)
  | none =>
    match rpcUrl with
    | some _ => .ok (.infura chainId infuraKey)
    | none => .error .missingRpcConfig

/-- C10: the provider returned by `getProvider` never depends on the value
of `RPC_URL`: with `INFURA_KEY` set it is the Infura provider for that
key; with `INFURA_KEY` unset and `RPC_URL` set it is still an Infura
provider built from the absent key, so the `RPC_URL` endpoint is never
used; it throws exactly when both variables are unset; and two runs
differing only in the value of a set `RPC_URL` get the same provider. -/
theorem getProvider_independent_of_rpcUrl (chainId : Nat) (env : Env) :
    (∀ u u' : String,
        getProvider chainId { env with rpcUrl := some u }
          = getProvider chainId { env with rpcUrl := some u' })
    ∧ (∀ k, env.infuraKey = some k →
        getProvider chainId env = .ok (.infura chainId (some k)))
    ∧ (env.infuraKey = none → ∀ u : String,
        getProvider chainId { env with rpcUrl := some u }
          = .ok (.infura chainId none))
    ∧ (getProvider chainId env = .error .missingRpcConfig
        ↔ env.infuraKey = none ∧ env.rpcUrl = none) := by
  refine ⟨?_, ?_, ?_, ?_⟩
  · intro u u'
    cases h : env.infuraKey <;> simp [getProvider, h]
  · intro k hk
    simp [getProvider, hk]
  · intro hk u
    simp [getProvider, hk]
  · cases hk : env.infuraKey with
    | none => cases hr : env.rpcUrl <;> simp [getProvider, hk, hr]
    | some k => simp [getProvider, hk]

/-- Environment with `INFURA_KEY` set, for witnesses. -/
def infuraEnv : Env :=
  { mnemonic := none, infuraKey := some "KEY", rpcUrl := none,
    appData := none, chainIdEnv := none }

/-- Environment with neither `INFURA_KEY` nor `RPC_URL`, for witnesses. -/
def bareEnv : Env :=
  { mnemonic := none, infuraKey := none, rpcUrl := none,
    appData := none, chainIdEnv := none }

/-- Witness for the C10 theorem at concrete environments. -/
theorem getProvider_independent_of_rpcUrl_witness :
    (getProvider 1 { infuraEnv with rpcUrl := some "urlA" }
        = getProvider 1 { infuraEnv with rpcUrl := some "urlB" })
    ∧ getProvider 1 infuraEnv = .ok (.infura 1 (some "KEY"))
    ∧ getProvider 1 { bareEnv with rpcUrl := some "urlC" }
        = .ok (.infura 1 none) :=
  ⟨(getProvider_independent_of_rpcUrl 1 infuraEnv).1 "urlA" "urlB",
    (getProvider_independent_of_rpcUrl 1 infuraEnv).2.1 "KEY" rfl,
    (getProvider_independent_of_rpcUrl 1 bareEnv).2.2.1 rfl "urlC"⟩

/-- A wallet (models `ethers.Wallet.fromMnemonic` abstractly: the address
is a function of the seed). -/
structure Wallet where
  address : String
  deriving DecidableEq, Repr

/-- Abstract key derivation of `Wallet.fromMnemonic`. -/
def walletFromMnemonic (mnemonic : String) : Wallet :=
  { address := "addr-of-" ++ mnemonic }

/-- Embedding of `getSigner` (utilities module): the switch recognizes
only the string literals of an earlier account-type set — `EOA` and
`SAFE_WITH_EOA_PROPOSER` derive a wallet from `MNEMONIC` (asserting its
presence), `SAFE` returns undefined, and every other value (including the
declared `SAFE_WITH_EOA_PRESIGN` and `SAFE_WITH_EOA_EIP1271`) falls
through the `default` case, also returning undefined. -/
def getSigner (accoutType : String) (env : Env) :
    Except CowError (Option Wallet) :=
  if accoutType = "EOA" ∨ accoutType = "SAFE_WITH_EOA_PROPOSER" then
    match env.mnemonic with
    | some m => .ok (some (walletFromMnemonic m))
    | none => .error .missingMnemonic
  else if accoutType = "SAFE" then
    .ok none
  else
    .ok none

/-- Embedding of `getChainIdFromEnv` (utilities module). -/
def getChainIdFromEnv (env : Env) : Except CowError Nat :=
  match env.chainIdEnv with
  | none => .error .missingChainId
  | some c =>
    if SUPPORTED_CHAIN_IDS.contains c then .ok c
    else .error (.unsupportedChainId c)

/-- `AccountParams` from `src/types.ts`; the account type arrives from an
unvalidated JSON file, so it is modelled as an arbitrary string. -/
structure AccountParams where
  accountType : String
  safeAddress : Option String
  deriving DecidableEq, Repr

/-- `OrderParams` from `src/types.ts`: the order definition file. -/
structure OrderParams where
  chainId : Option Nat
  account : AccountParams
  order : LimitOrderParams
  deriving DecidableEq, Repr

/-- Embedding of `getTradingAccounts` (`src/index.ts`): for `EOA` the
trading account is the signing account (asserted present); otherwise it is
the safe address (asserted present); the receiver defaults to the trading
account. -/
def getTradingAccounts (accountType : String) (safeAddress : Option String)
    (receiverParam : Option String) (signingAccount : Option String) :
    Except CowError (String × String) :=
  if accountType = "EOA" then
    match signingAccount with
    | some sa => .ok (sa, receiverParam.getD sa)
    | none => .error .signerAddressMissing
  else
    match safeAddress with
    | some sa => .ok (sa, receiverParam.getD sa)
    | none => .error (.safeAddressMissing accountType)

/-- Zero app-data hash, the final fallback of the `APP_DATA` constant. -/
def zeroAppData : String :=
  "0x0000000000000000000000000000000000000000000000000000000000000000"

/-- The `APP_DATA` constant of `src/constants.ts`:
`process.env.APP_DATA` or the zero hash. -/
def APP_DATA (env : Env) : String := env.appData.getD zeroAppData

/-- The quote response of the external quoting collaborator. -/
structure QuoteResult where
  sellAmount : Nat
  buyAmount : Nat
  feeAmount : Nat
  deriving DecidableEq, Repr

/-- Embedding of `getQuoteOrder` (`src/index.ts`): sell order, ERC-20
balance sources, `partiallyFillable` defaulted to false, `appData`
defaulted from the environment, deadline `ceil((now + 30min) / 1000)`. -/
def getQuoteOrder (env : Env) (order : LimitOrderParams)
    (fromAccount receiver : String) (nowMs : Nat) : QuoteQuery :=
  { partiallyFillable := order.partiallyFillable.getD false,
    kind := "sell",
    sellTokenBalance := "erc20",
    buyTokenBalance := "erc20",
    sellToken := order.sellToken,
    buyToken := order.buyToken,
    sellAmountBeforeFee := order.sellAmountBeforeFee,
    «from» := fromAccount,
    receiver := receiver,
    validTo := (nowMs + DEADLINE_OFFSET + 999) / 1000,
    appData := order.appData.getD (APP_DATA env) }

/-- The raw order sent for signing/submission, as a record (its key-level
construction by spread and delete is modelled by `rawOrderObj`). -/
structure RawOrder where
  partiallyFillable : Bool
  kind : String
  sellTokenBalance : String
  buyTokenBalance : String
  sellToken : String
  buyToken : String
  «from» : String
  receiver : String
  validTo : Nat
  appData : String
  sellAmount : Nat
  buyAmount : Int
  feeAmount : Nat
  priceQuality : String
  deriving DecidableEq, Repr

/-- The `RawOrder` of `run` (`src/index.ts`): the quote query with
receiver, limit price, fee and `priceQuality` overridden and the
`sellAmountBeforeFee` key removed. -/
def mkRawOrder (q : QuoteQuery) (receiver : String) (sellAmount : Nat)
    (buyAmount : Int) (feeAmount : Nat) : RawOrder :=
  { partiallyFillable := q.partiallyFillable,
    kind := q.kind,
    sellTokenBalance := q.sellTokenBalance,
    buyTokenBalance := q.buyTokenBalance,
    sellToken := q.sellToken,
    buyToken := q.buyToken,
    «from» := q.«from»,
    receiver := receiver,
    validTo := q.validTo,
    appData := q.appData,
    sellAmount := sellAmount,
    buyAmount := buyAmount,
    feeAmount := feeAmount,
    priceQuality := "optimal" }

/-- Signing schemes used when posting an order. -/
inductive SigningScheme where
  | eip712
  | presign
  deriving DecidableEq, Repr

/-- An order as posted to the order-book collaborator. -/
structure PostedOrder where
  order : RawOrder
  signature : String
  signingScheme : SigningScheme
  owner : String
  deriving DecidableEq, Repr

/-- Outgoing calls of one run, in order: the quote request, on-chain
reads, individually sent transactions (EOA path), posted orders, Safe
service calls, the EIP-1271 degradation notice, the creation of the
pre-sign operation, the proposed bundle and its optional execution. -/
inductive Event where
  | getQuote (q : QuoteQuery)
  | chainRead (q : ChainQuery)
  | sendTransaction (request : TxRequest)
  | sendOrder (p : PostedOrder)
  | getSafeInfo (safeAddress : String)
  | degradationNotice
  | createPresignOp (orderUid : String)
  | proposeSafeTx (requests : List TxRequest)
  | executeSafeTx (requests : List TxRequest)
  deriving DecidableEq, Repr

/-- Terminal outcome of a run: order submitted (exit 0), user declined a
confirmation (exit 100), or error (exit 200). -/
inductive RunResult where
  | submitted (orderUid : String)
  | declined
  | failed (e : CowError)
  deriving DecidableEq, Repr

/-- Abstract EIP-712 signature of `cowSdk.signOrder`. -/
def signOrderEip712 (w : Wallet) (_o : RawOrder) : String :=
  "eip712-sig-" ++ w.address

/-- Embedding of `executePreInteractions` (`src/index.ts`, EOA path):
sends each pending operation individually, asking confirmation before
each; a declination halts the run (exit 100, modelled by `none`);
otherwise returns the next confirmation-prompt index. -/
def executePreInteractions (txs : List OnchainOperation)
    (answers : Nat → Bool) (k : Nat) : Option Nat × List Event :=
  match txs with
  | [] => (some k, [])
  | op :: rest =>
    if answers k then
      let next := executePreInteractions rest answers (k + 1)
      (next.1, Event.sendTransaction op.txRequest :: next.2)
    else (none, [])

/-- Embedding of `getPresignOperation` (`src/index.ts`): the
`setPreSignature(orderUid, true)` call on the settlement contract. -/
def getPresignOperation (orderUid : String) (chainId : Nat) :
    OnchainOperation :=
  { description := "Pre-sign order",
    txRequest :=
      { «to» := settlementAddress chainId,
        value := 0,
        data := .setPreSignature orderUid true } }

/-- The Safe metadata returned by the coordination service. -/
structure SafeInfoResponse where
  address : String
  nonce : Nat
  threshold : Nat
  owners : List String
  deriving DecidableEq, Repr

/-- Embedding of `executeSafeTransaction` (`src/index.ts`): when the
threshold is not 1 more signatures are needed and nothing is executed;
with threshold 1 the (single, bundled) Safe transaction is executed after
confirmation. -/
def executeSafeTransaction (requests : List TxRequest)
    (safeInfo : SafeInfoResponse) (confirmExec : Bool) : List Event :=
  if safeInfo.threshold ≠ 1 then []
  else if confirmExec then [.executeSafeTx requests]
  else []

/-- Embedding of `signAndPostOrderEip712` (`src/index.ts`). -/
def signAndPostOrderEip712 (w : Wallet) (rawOrder : RawOrder)
    (orderUidResponse : String) (confirmPost : Bool) :
    RunResult × List Event :=
  if confirmPost then
    (.submitted orderUidResponse,
      [Event.sendOrder
        { order := rawOrder,
          signature := signOrderEip712 w rawOrder,
          signingScheme := .eip712,
          owner := w.address }])
  else (.declined, [])

/-- Embedding of `postOrderPresign` (`src/index.ts`): after confirmation,
post the pre-sign order to the order book (signature field set to the
trading account address itself, scheme PRESIGN, owner the trading
account), then create the pre-sign operation and append it to the pending
operations, then propose the whole sequence as one bundled Safe
transaction, then optionally execute it. -/
def postOrderPresign (_signingAccount : String) (rawOrder : RawOrder)
    (txs : List OnchainOperation) (safeInfo : SafeInfoResponse)
    (chainId : Nat) (orderUidResponse : String)
    (confirmPost confirmExec : Bool) : RunResult × List Event :=
  let fromAccount := rawOrder.«from»
  if confirmPost then
    let posted : PostedOrder :=
      { order := rawOrder,
        signature := fromAccount,
        signingScheme := .presign,
        owner := fromAccount }
    let presignOp := getPresignOperation orderUidResponse chainId
    let bundle := txs ++ [presignOp]
    let requests := bundle.map (fun t => t.txRequest)
    (.submitted orderUidResponse,
      Event.sendOrder posted
        :: Event.createPresignOp orderUidResponse
        :: Event.proposeSafeTx requests
        :: executeSafeTransaction requests safeInfo confirmExec)
  else (.declined, [])

/-- Embedding of `getSdkInstance` (`src/index.ts`): resolve the chain id
(order file first, environment fallback), build the provider and the
optional signer. -/
def getSdkInstance (orderDefinition : OrderParams) (env : Env) :
    Except CowError (Nat × Provider × Option Wallet × Option String) :=
  match (match orderDefinition.chainId with
         | some c => Except.ok c
         | none => getChainIdFromEnv env) with
  | .error e => .error e
  | .ok chainId =>
    match getProvider chainId env with
    | .error e => .error e
    | .ok provider =>
      match getSigner orderDefinition.account.accountType env with
      | .error e => .error e
      | .ok signer =>
        .ok (chainId, provider, signer, signer.map (fun w => w.address))

/-- All inputs of one run: the environment, the order definition file,
the visible chain state, the clock, and the responses of the external
collaborators (quote, order id, Safe metadata, console answers). -/
structure RunInput where
  env : Env
  orderDefinition : OrderParams
  chain : ChainState
  nowMs : Nat
  quote : QuoteResult
  orderUidResponse : String
  safeInfo : SafeInfoResponse
  answers : Nat → Bool

/-- Embedding of `run` (`src/index.ts`): SDK instantiation, trading
account resolution, quote request, price protection, raw order
construction, preparatory approval planning, and the account-model
dispatch (EOA signing path, Safe pre-sign path with the EIP-1271
degradation, and the final `Not implemented` fallthrough). -/
def run (inp : RunInput) : RunResult × List Event :=
  let orderDefinition := inp.orderDefinition
  let account := orderDefinition.account
  match getSdkInstance orderDefinition inp.env with
  | .error e => (.failed e, [])
  | .ok (chainId, _provider, signer, signingAccount) =>
    match getTradingAccounts account.accountType account.safeAddress
        orderDefinition.order.receiver signingAccount with
    | .error e => (.failed e, [])
    | .ok (fromAccount, receiver) =>
      let quoteOrder :=
        getQuoteOrder inp.env orderDefinition.order fromAccount receiver inp.nowMs
      let price := getCustomPrice inp.quote.sellAmount inp.quote.buyAmount
        orderDefinition.order.slippageToleranceBips
      let rawOrder :=
        mkRawOrder quoteOrder receiver price.sellAmount price.buyAmount
          inp.quote.feeAmount
      let planned := getAppoveOperation inp.chain fromAccount price.sellAmount
        chainId orderDefinition.order
      let ev1 := Event.getQuote quoteOrder :: planned.2.map Event.chainRead
      match planned.1 with
      | .error e => (.failed e, ev1)
      | .ok approveOperation =>
        let txs := match approveOperation with
          | some op => [op]
          | none => []
        let accountType := account.accountType
        let isEip1271 := accountType = "SAFE_WITH_EOA_EIP1271"
        let isPreSign := accountType = "SAFE_WITH_EOA_PRESIGN"
        if accountType = "EOA" then
          match signer with
          | none => (.failed .signerAssertionFailed, ev1)
          | some w =>
            match executePreInteractions txs inp.answers 0 with
            | (none, evs) => (.declined, ev1 ++ evs)
            | (some k, evs) =>
              let posted := signAndPostOrderEip712 w rawOrder
                inp.orderUidResponse (inp.answers k)
              (posted.1, ev1 ++ evs ++ posted.2)
        else if isPreSign ∨ isEip1271 then
          match signer with
          | none => (.failed .signerAssertionFailed, ev1)
          | some w =>
            let ev2 := ev1 ++ [Event.getSafeInfo fromAccount]
            match (if isEip1271 then
                     if txs.length > 0 then
                       Except.ok (true, [Event.degradationNotice])
                     else Except.ok (false, ([] : List Event))
                   else if isPreSign then
                     Except.ok (true, ([] : List Event))
                   else
                     Except.error (CowError.unsupportedAccountType accountType)) with
            | .error e => (.failed e, ev2)
            | .ok (usePresign, evNotice) =>
              let ev3 := ev2 ++ evNotice
              if usePresign then
                let posted := postOrderPresign w.address rawOrder txs
                  inp.safeInfo chainId inp.orderUidResponse
                  (inp.answers 0) (inp.answers 1)
                (posted.1, ev3 ++ posted.2)
              else (.failed .notImplementedEip1271, ev3)
        else (.failed .notImplemented, ev1)

/-- Events that belong to Safe coordination or order submission: anything
past the failing assertion of the dispatcher's Safe branch. -/
def isCoordinationEvent : Event → Bool
  | .getSafeInfo _ => true
  | .sendOrder _ => true
  | .proposeSafeTx _ => true
  | .executeSafeTx _ => true
  | .sendTransaction _ => true
  | _ => false

/-- Recognizes the proposal of a bundled Safe transaction. -/
def isProposal : Event → Bool
  | .proposeSafeTx _ => true
  | _ => false

/-- Recognizes an individually sent (non-bundled) transaction. -/
def isIndividualSend : Event → Bool
  | .sendTransaction _ => true
  | _ => false

/-- Recognizes the quote request, the first network call of a run. -/
def isQuoteRequest : Event → Bool
  | .getQuote _ => true
  | _ => false

theorem coordination_free_quote_trace (q : QuoteQuery) (l : List ChainQuery) :
    ∀ ev ∈ Event.getQuote q :: l.map Event.chainRead,
      isCoordinationEvent ev = false := by
  intro ev hev
  rcases List.mem_cons.1 hev with rfl | h
  · rfl
  · obtain ⟨cq, _, rfl⟩ := List.mem_map.1 h
    rfl

theorem getSdkInstance_signer (o : OrderParams) (env : Env) (c : Nat)
    (p : Provider) (s : Option Wallet) (a : Option String)
    (h : getSdkInstance o env = .ok (c, p, s, a)) :
    getSigner o.account.accountType env = .ok s := by
  unfold getSdkInstance at h
  repeat' split at h
  all_goals simp_all

theorem getSigner_safe_types_none (t : String) (env : Env)
    (hT : t = "SAFE_WITH_EOA_PRESIGN" ∨ t = "SAFE_WITH_EOA_EIP1271") :
    getSigner t env = .ok none := by
  rcases hT with rfl | rfl <;> simp [getSigner]

/-- C7: in the threshold-coordination path of `postOrderPresign` (with the
posting confirmed), the pre-sign order is posted to the order book —
signature field set to the trading account's own address, signing scheme
PRESIGN, owner the trading account — strictly before the pre-signature
operation is created and appended to the operation sequence; in the
proposed sequence the pending operations keep their order and the
pre-signature operation comes last, so an approve operation, when present,
precedes it; and all pending operations go into exactly one proposed Safe
transaction, with no operation sent individually. -/
theorem postOrderPresign_coordination (signingAccount : String)
    (rawOrder : RawOrder) (txs : List OnchainOperation)
    (safeInfo : SafeInfoResponse) (chainId : Nat) (orderUid : String)
    (confirmExec : Bool) :
    (postOrderPresign signingAccount rawOrder txs safeInfo chainId orderUid
        true confirmExec).2
      = Event.sendOrder
            { order := rawOrder,
              signature := rawOrder.«from»,
              signingScheme := .presign,
              owner := rawOrder.«from» }
          :: Event.createPresignOp orderUid
          :: Event.proposeSafeTx
              ((txs ++ [getPresignOperation orderUid chainId]).map
                (fun t => t.txRequest))
          :: executeSafeTransaction
              ((txs ++ [getPresignOperation orderUid chainId]).map
                (fun t => t.txRequest)) safeInfo confirmExec
    ∧ ((txs ++ [getPresignOperation orderUid chainId]).map
          (fun t => t.txRequest))
        = txs.map (fun t => t.txRequest)
            ++ [(getPresignOperation orderUid chainId).txRequest]
    ∧ ((postOrderPresign signingAccount rawOrder txs safeInfo chainId orderUid
          true confirmExec).2.countP isProposal) = 1
    ∧ (∀ ev ∈ (postOrderPresign signingAccount rawOrder txs safeInfo chainId
          orderUid true confirmExec).2, isIndividualSend ev = false) := by
  refine ⟨rfl, by simp, ?_, ?_⟩
  · by_cases ht : safeInfo.threshold = 1 <;> by_cases hc : confirmExec <;>
      simp [postOrderPresign, executeSafeTransaction, ht, hc, isProposal,
        List.countP_cons]
  · intro ev hev
    revert hev
    by_cases ht : safeInfo.threshold = 1 <;> by_cases hc : confirmExec <;>
      simp [postOrderPresign, executeSafeTransaction, ht, hc] <;>
      rintro (rfl | rfl | rfl | rfl) <;> rfl

/-- Every non-EOA run fails, and its trace holds no coordination event:
either an early configuration error (empty trace) or, past the quote and
the on-chain reads, one of the dispatcher's failures — for the declared
Safe account types the signer assertion (the signer is always undefined
there), for every other non-EOA value the final `Not implemented`. -/
theorem run_non_eoa_fails (inp : RunInput)
    (hne : inp.orderDefinition.account.accountType ≠ "EOA") :
    (∃ e, (run inp).1 = RunResult.failed e)
    ∧ ∀ ev ∈ (run inp).2, isCoordinationEvent ev = false := by
  cases hsdk : getSdkInstance inp.orderDefinition inp.env with
  | error e =>
    have hrun : run inp = (.failed e, []) := by
      simp [run, hsdk]
    rw [hrun]
    exact ⟨⟨e, rfl⟩, by simp⟩
  | ok tup =>
    obtain ⟨c, p, s, a⟩ := tup
    have hsig := getSdkInstance_signer _ _ _ _ _ _ hsdk
    cases hsa : inp.orderDefinition.account.safeAddress with
    | none =>
      have hrun : run inp
          = (.failed (.safeAddressMissing inp.orderDefinition.account.accountType),
              []) := by
        simp [run, hsdk, getTradingAccounts, hne, hsa]
      rw [hrun]
      exact ⟨⟨_, rfl⟩, by simp⟩
    | some saddr =>
      by_cases hbal : inp.chain.balanceOf inp.orderDefinition.order.sellToken saddr
          < inp.orderDefinition.order.sellAmountBeforeFee
      · have hrun : run inp
            = (.failed (.insufficientBalance inp.orderDefinition.order.sellToken
                  inp.orderDefinition.order.sellAmountBeforeFee
                  (inp.chain.balanceOf inp.orderDefinition.order.sellToken saddr)),
                Event.getQuote (getQuoteOrder inp.env inp.orderDefinition.order saddr
                    (inp.orderDefinition.order.receiver.getD saddr) inp.nowMs)
                  :: [ChainQuery.balanceOf inp.orderDefinition.order.sellToken
                    saddr].map Event.chainRead) := by
          simp [run, hsdk, getTradingAccounts, hne, hsa, getAppoveOperation, hbal]
        rw [hrun]
        exact ⟨⟨_, rfl⟩, coordination_free_quote_trace _ _⟩
      · have hop : ∃ op, (getAppoveOperation inp.chain saddr
            inp.quote.sellAmount c inp.orderDefinition.order).1 = Except.ok op := by
          simp only [getAppoveOperation, hbal, if_false]
          split
          · exact ⟨none, rfl⟩
          · exact ⟨_, rfl⟩
        obtain ⟨op, hop⟩ := hop
        have htrace : (getAppoveOperation inp.chain saddr
            inp.quote.sellAmount c inp.orderDefinition.order).2
              = [ChainQuery.balanceOf inp.orderDefinition.order.sellToken saddr,
                ChainQuery.allowance inp.orderDefinition.order.sellToken saddr
                  (vaultRelayerAddress c)] := by
          simp only [getAppoveOperation, hbal, if_false]
          split <;> rfl
        by_cases hP : inp.orderDefinition.account.accountType
            = "SAFE_WITH_EOA_PRESIGN"
        · have hs : s = none :=
            Except.ok.inj (hsig.symm.trans
              (getSigner_safe_types_none _ inp.env (Or.inl hP)))
          have hrun : run inp
              = (.failed .signerAssertionFailed,
                  Event.getQuote (getQuoteOrder inp.env inp.orderDefinition.order
                      saddr (inp.orderDefinition.order.receiver.getD saddr)
                      inp.nowMs)
                    :: [ChainQuery.balanceOf inp.orderDefinition.order.sellToken
                        saddr,
                      ChainQuery.allowance inp.orderDefinition.order.sellToken
                        saddr (vaultRelayerAddress c)].map Event.chainRead) := by
            simp [run, hsdk, getTradingAccounts, hne, hsa, getCustomPrice,
              hop, htrace, hP, hs]
          rw [hrun]
          exact ⟨⟨_, rfl⟩, coordination_free_quote_trace _ _⟩
        · by_cases hE : inp.orderDefinition.account.accountType
              = "SAFE_WITH_EOA_EIP1271"
          · have hs : s = none :=
              Except.ok.inj (hsig.symm.trans
                (getSigner_safe_types_none _ inp.env (Or.inr hE)))
            have hrun : run inp
                = (.failed .signerAssertionFailed,
                    Event.getQuote (getQuoteOrder inp.env inp.orderDefinition.order
                        saddr (inp.orderDefinition.order.receiver.getD saddr)
                        inp.nowMs)
                      :: [ChainQuery.balanceOf inp.orderDefinition.order.sellToken
                          saddr,
                        ChainQuery.allowance inp.orderDefinition.order.sellToken
                          saddr (vaultRelayerAddress c)].map Event.chainRead) := by
              simp [run, hsdk, getTradingAccounts, hne, hsa, getCustomPrice,
                hop, htrace, hE, hs]
            rw [hrun]
            exact ⟨⟨_, rfl⟩, coordination_free_quote_trace _ _⟩
          · have hrun : run inp
                = (.failed .notImplemented,
                    Event.getQuote (getQuoteOrder inp.env inp.orderDefinition.order
                        saddr (inp.orderDefinition.order.receiver.getD saddr)
                        inp.nowMs)
                      :: [ChainQuery.balanceOf inp.orderDefinition.order.sellToken
                          saddr,
                        ChainQuery.allowance inp.orderDefinition.order.sellToken
                          saddr (vaultRelayerAddress c)].map Event.chainRead) := by
              simp [run, hsdk, getTradingAccounts, hne, hsa, getCustomPrice,
                hop, htrace, hP, hE]
            rw [hrun]
            exact ⟨⟨_, rfl⟩, coordination_free_quote_trace _ _⟩

/-- C2: `getSigner` returns undefined for `SAFE_WITH_EOA_PRESIGN` and for
`SAFE_WITH_EOA_EIP1271` (its switch recognizes only `EOA`,
`SAFE_WITH_EOA_PROPOSER` and `SAFE`); consequently every run with either
Safe account type of the declared set fails — with no Safe coordination
event of any kind (no Safe info fetch, no order posting, no proposal, no
transaction) in its trace — and a run that reaches the dispatcher (chain
id in the order file, provider configured, safe address present,
sufficient balance) aborts precisely on the dispatcher's
`assert(signer && signingAccount)`. -/
theorem run_safe_account_types_abort (inp : RunInput)
    (hT : inp.orderDefinition.account.accountType = "SAFE_WITH_EOA_PRESIGN"
        ∨ inp.orderDefinition.account.accountType = "SAFE_WITH_EOA_EIP1271") :
    getSigner inp.orderDefinition.account.accountType inp.env = Except.ok none
    ∧ (∃ e, (run inp).1 = RunResult.failed e)
    ∧ (∀ ev ∈ (run inp).2, isCoordinationEvent ev = false)
    ∧ (∀ c saddr, inp.orderDefinition.chainId = some c →
        inp.env.infuraKey.isSome = true →
        inp.orderDefinition.account.safeAddress = some saddr →
        inp.orderDefinition.order.sellAmountBeforeFee
            ≤ inp.chain.balanceOf inp.orderDefinition.order.sellToken saddr →
        (run inp).1 = RunResult.failed CowError.signerAssertionFailed) := by
  have hne : inp.orderDefinition.account.accountType ≠ "EOA" := by
    rcases hT with hT | hT <;> rw [hT] <;> decide
  have hsig0 := getSigner_safe_types_none inp.orderDefinition.account.accountType
    inp.env hT
  obtain ⟨hex, hfree⟩ := run_non_eoa_fails inp hne
  refine ⟨hsig0, hex, hfree, ?_⟩
  intro c saddr hc hik hsa hbal
  obtain ⟨ik, hik'⟩ := Option.isSome_iff_exists.mp hik
  have hsdk : getSdkInstance inp.orderDefinition inp.env
      = .ok (c, .infura c (some ik), none, none) := by
    simp [getSdkInstance, hc, getProvider, hik', hsig0]
  have hb' := Nat.not_lt.2 hbal
  have hop : ∃ op, (getAppoveOperation inp.chain saddr
      inp.quote.sellAmount c inp.orderDefinition.order).1 = Except.ok op := by
    simp only [getAppoveOperation, hb', if_false]
    split
    · exact ⟨none, rfl⟩
    · exact ⟨_, rfl⟩
  obtain ⟨op, hop⟩ := hop
  rcases hT with hP | hP <;>
    simp [run, hsdk, getTradingAccounts, hne, hsa, getCustomPrice, hop, hP]

/-- The declared-Safe account for the concrete pre-sign run. -/
def presignAccount : AccountParams :=
  { accountType := "SAFE_WITH_EOA_PRESIGN", safeAddress := some "0xSAFE" }

/-- Order definition file content of the concrete pre-sign run. -/
def presignOrderParams : OrderParams :=
  { chainId := some 1, account := presignAccount, order := tenUnitsOrder }

/-- A fully configured environment (mnemonic and Infura key present). -/
def fullEnv : Env :=
  { mnemonic := some "seed", infuraKey := some "KEY", rpcUrl := none,
    appData := none, chainIdEnv := none }

/-- A 1-of-1 Safe, as the coordination service would report it. -/
def oneOwnerSafe : SafeInfoResponse :=
  { address := "0xSAFE", nonce := 0, threshold := 1, owners := ["0xOWNER"] }

/-- A small quote response. -/
def smallQuote : QuoteResult := { sellAmount := 9, buyAmount := 100, feeAmount := 1 }

/-- A complete, well-configured run input whose account type is
`SAFE_WITH_EOA_PRESIGN`: sufficient balance, safe address present,
mnemonic and RPC configured, a cooperative user. -/
def presignRunInput : RunInput :=
  { env := fullEnv, orderDefinition := presignOrderParams,
    chain := richChainLowAllowance, nowMs := 0, quote := smallQuote,
    orderUidResponse := "0xUID", safeInfo := oneOwnerSafe,
    answers := fun _ => true }

/-- Witness for the C2 theorem at the concrete pre-sign run input. -/
theorem run_safe_account_types_abort_witness :
    (presignRunInput.orderDefinition.account.accountType = "SAFE_WITH_EOA_PRESIGN"
      ∨ presignRunInput.orderDefinition.account.accountType = "SAFE_WITH_EOA_EIP1271")
    ∧ (run presignRunInput).1 = RunResult.failed CowError.signerAssertionFailed :=
  ⟨Or.inl rfl,
    (run_safe_account_types_abort presignRunInput (Or.inl rfl)).2.2.2 1 "0xSAFE"
      rfl rfl rfl (by decide)⟩

/-- The EIP-1271 variant of the concrete run input. -/
def eip1271Account : AccountParams :=
  { accountType := "SAFE_WITH_EOA_EIP1271", safeAddress := some "0xSAFE" }

/-- Order definition with the EIP-1271 account type. -/
def eip1271OrderParams : OrderParams :=
  { chainId := some 1, account := eip1271Account, order := tenUnitsOrder }

/-- The concrete run input with accountType `SAFE_WITH_EOA_EIP1271`. -/
def eip1271RunInput : RunInput :=
  { presignRunInput with orderDefinition := eip1271OrderParams }

/-- C1 (evidence of the code bug): on a concrete, fully configured
`SAFE_WITH_EOA_PRESIGN` run — and likewise on its `SAFE_WITH_EOA_EIP1271`
variant with a pending approve operation — the program does not route the
order anywhere: `getSigner` does not recognize the declared Safe account
types (its switch lists `SAFE_WITH_EOA_PROPOSER` and `SAFE` instead), so
the dispatcher's `assert(signer && signingAccount)` fails and the run
aborts before any coordination event (no Safe info fetch, no pre-sign
order posting, no proposal, no pre-signature), contradicting the
documented routing of both Safe paths. -/
theorem run_safe_paths_unreachable :
    getSigner "SAFE_WITH_EOA_PRESIGN" fullEnv = Except.ok none
    ∧ getSigner "SAFE_WITH_EOA_EIP1271" fullEnv = Except.ok none
    ∧ (run presignRunInput).1 = RunResult.failed CowError.signerAssertionFailed
    ∧ (∀ ev ∈ (run presignRunInput).2, isCoordinationEvent ev = false)
    ∧ (run eip1271RunInput).1 = RunResult.failed CowError.signerAssertionFailed
    ∧ (∀ ev ∈ (run eip1271RunInput).2, isCoordinationEvent ev = false) := by
  refine ⟨rfl, rfl, by decide, ?_, by decide, ?_⟩ <;> decide

/-- C8 (amended): for every accountType value outside the three declared
ones, a run that reaches the dispatcher (chain id in the order file,
provider and mnemonic configured, safe address present, sufficient
balance) fails fatally with the dispatcher's final `Not implemented`
error — a late runtime failure at the dispatch point, after the quote
request has already been issued as the run's first network call (and the
on-chain reads made), not before any network call as the claim states. -/
theorem run_unknown_account_type_fails_after_quote (inp : RunInput)
    (c : Nat) (ik m saddr : String)
    (hT : inp.orderDefinition.account.accountType
        ∉ (["EOA", "SAFE_WITH_EOA_PRESIGN", "SAFE_WITH_EOA_EIP1271"] : List String))
    (hc : inp.orderDefinition.chainId = some c)
    (hik : inp.env.infuraKey = some ik)
    (hm : inp.env.mnemonic = some m)
    (hsa : inp.orderDefinition.account.safeAddress = some saddr)
    (hbal : inp.orderDefinition.order.sellAmountBeforeFee
        ≤ inp.chain.balanceOf inp.orderDefinition.order.sellToken saddr) :
    (run inp).1 = RunResult.failed CowError.notImplemented
    ∧ (run inp).2.head? = some (Event.getQuote (getQuoteOrder inp.env
        inp.orderDefinition.order saddr
        (inp.orderDefinition.order.receiver.getD saddr) inp.nowMs))
    ∧ ((run inp).2.countP isQuoteRequest) = 1 := by
  simp only [List.mem_cons, List.not_mem_nil, or_false, not_or] at hT
  obtain ⟨hne, hnP, hnE⟩ := hT
  have hb' := Nat.not_lt.2 hbal
  have hop : ∃ op, (getAppoveOperation inp.chain saddr
      inp.quote.sellAmount c inp.orderDefinition.order).1 = Except.ok op := by
    simp only [getAppoveOperation, hb', if_false]
    split
    · exact ⟨none, rfl⟩
    · exact ⟨_, rfl⟩
  obtain ⟨op, hop⟩ := hop
  have htrace : (getAppoveOperation inp.chain saddr
      inp.quote.sellAmount c inp.orderDefinition.order).2
        = [ChainQuery.balanceOf inp.orderDefinition.order.sellToken saddr,
          ChainQuery.allowance inp.orderDefinition.order.sellToken saddr
            (vaultRelayerAddress c)] := by
    simp only [getAppoveOperation, hb', if_false]
    split <;> rfl
  have hfinish : ∀ s' : Option Wallet,
      getSdkInstance inp.orderDefinition inp.env
          = .ok (c, .infura c (some ik), s', s'.map (fun w => w.address)) →
      (run inp).1 = RunResult.failed CowError.notImplemented
      ∧ (run inp).2.head? = some (Event.getQuote (getQuoteOrder inp.env
          inp.orderDefinition.order saddr
          (inp.orderDefinition.order.receiver.getD saddr) inp.nowMs))
      ∧ ((run inp).2.countP isQuoteRequest) = 1 := by
    intro s' hsdk
    have hrun : run inp
        = (.failed .notImplemented,
            Event.getQuote (getQuoteOrder inp.env inp.orderDefinition.order
                saddr (inp.orderDefinition.order.receiver.getD saddr) inp.nowMs)
              :: [ChainQuery.balanceOf inp.orderDefinition.order.sellToken saddr,
                ChainQuery.allowance inp.orderDefinition.order.sellToken saddr
                  (vaultRelayerAddress c)].map Event.chainRead) := by
      simp [run, hsdk, getTradingAccounts, hne, hsa, getCustomPrice, hop,
        htrace, hnP, hnE]
    rw [hrun]
    exact ⟨rfl, rfl, by simp [isQuoteRequest]⟩
  by_cases hprop : inp.orderDefinition.account.accountType
      = "SAFE_WITH_EOA_PROPOSER"
  · exact hfinish (some (walletFromMnemonic m))
      (by simp [getSdkInstance, hc, getProvider, hik, getSigner, hprop, hm])
  · exact hfinish none
      (by simp [getSdkInstance, hc, getProvider, hik, getSigner, hne, hprop])

/-- An account with the unrecognized type `SAFE` (a value of an earlier
revision of the account-type union). -/
def unknownAccount : AccountParams :=
  { accountType := "SAFE", safeAddress := some "0xSAFE" }

/-- Order definition with the unrecognized account type. -/
def unknownOrderParams : OrderParams :=
  { chainId := some 1, account := unknownAccount, order := tenUnitsOrder }

/-- The concrete run input with the unrecognized account type. -/
def unknownRunInput : RunInput :=
  { presignRunInput with orderDefinition := unknownOrderParams }

/-- Witness for the amended C8 theorem at the concrete unrecognized-type
run input. -/
theorem run_unknown_account_type_fails_after_quote_witness :
    (unknownRunInput.orderDefinition.account.accountType
        ∉ (["EOA", "SAFE_WITH_EOA_PRESIGN", "SAFE_WITH_EOA_EIP1271"] : List String))
    ∧ ((run unknownRunInput).1 = RunResult.failed CowError.notImplemented
        ∧ (run unknownRunInput).2.head? = some (Event.getQuote (getQuoteOrder
            unknownRunInput.env unknownRunInput.orderDefinition.order "0xSAFE"
            (unknownRunInput.orderDefinition.order.receiver.getD "0xSAFE")
            unknownRunInput.nowMs))
        ∧ ((run unknownRunInput).2.countP isQuoteRequest) = 1) :=
  ⟨by decide,
    run_unknown_account_type_fails_after_quote unknownRunInput 1 "KEY" "seed"
      "0xSAFE" (by decide) rfl rfl rfl rfl (by decide)⟩

/-- Counterexample to claim C8 as stated: the run with the unrecognized
accountType `SAFE` (safe address present, configured environment,
sufficient balance) is not rejected at a validation checkpoint before any
network call: its very first event is the quote request, and only after it
(and the on-chain reads) does the run fail, with the dispatcher's late
`Not implemented` error. -/
theorem run_unknown_account_type_counterexample :
    (run unknownRunInput).1 = RunResult.failed CowError.notImplemented
    ∧ ((run unknownRunInput).2.countP isQuoteRequest) = 1
    ∧ ((run unknownRunInput).2.map isQuoteRequest).head? = some true := by
  refine ⟨by decide, by decide, by decide⟩
